import Mathlib

/-!
Shallow embedding of the idlgen sample library (src/samples/samples.hpp)
and of the C-ABI handle boundary its spec describes.  C++ `int` values are
modelled as `Int` (signed overflow is undefined behaviour in the source,
so the functions are specified on mathematical integers), `double` values
as `Rat` (the claims under verification only touch points where the IEEE
computation is exact), and nullable pointers as `Option`.
-/

namespace Samples

/-- The struct Point of the C API: two integer coordinates. -/
structure Point where
  x : Int
  y : Int
deriving DecidableEq, Repr

/-- The struct BoundingBox of the C API: position, size and confidence. -/
structure BoundingBox where
  x : Int
  y : Int
  width : Int
  height : Int
  confidence : Rat
deriving DecidableEq, Repr

/-- Calculator.add from samples.hpp: `return a + b;`. -/
def Calculator.add (a b : Int) : Int := a + b

/-- Calculator.subtract from samples.hpp: `return a - b;`. -/
def Calculator.subtract (a b : Int) : Int := a - b

/-- Calculator.multiply from samples.hpp: `return a * b;`. -/
def Calculator.multiply (a b : Int) : Int := a * b

/-- Calculator.divide from samples.hpp: `return b != 0.0 ? a / b : 0.0;`. -/
def Calculator.divide (a b : Rat) : Rat := if b ≠ 0 then a / b else 0

/-- The Status enum of the C API (samples_c_api.h). -/
inductive Status where
  | Status_Unknown
  | Status_Pending
  | Status_Active
  | Status_Completed
  | Status_Failed
deriving DecidableEq, Repr

open Status

/-- TaskProcessor.statusFromCode from samples.hpp: a switch mapping codes
0, 1, 10, 20, 100 to the five statuses, with default Status_Unknown. -/
def TaskProcessor.statusFromCode (code : Int) : Status :=
  if code = 0 then Status_Unknown
  else if code = 1 then Status_Pending
  else if code = 10 then Status_Active
  else if code = 20 then Status_Completed
  else if code = 100 then Status_Failed
  else Status_Unknown

/-- The integer code each status is parsed from, read off the cases of
TaskProcessor.statusFromCode (the reverse mapping of the switch). -/
def statusCode : Status → Int
  | Status_Unknown => 0
  | Status_Pending => 1
  | Status_Active => 10
  | Status_Completed => 20
  | Status_Failed => 100

/-- Truncation toward zero: the behaviour of static_cast to int on an
in-range floating value, applied here only where the computation is exact. -/
def truncToInt (q : Rat) : Int := if 0 ≤ q then ⌊q⌋ else ⌈q⌉

/-- The point produced by iteration i of the loop in Geometry.createLine:
t is 0 for a single point and i / (numPoints - 1) otherwise, and each
coordinate is start + t * (stop - start), truncated to int. -/
def linePoint (x1 y1 x2 y2 numPoints : Int) (i : Nat) : Point :=
  let t : Rat := if numPoints = 1 then 0 else (i : Rat) / ((numPoints : Rat) - 1)
  { x := truncToInt ((x1 : Rat) + t * (((x2 - x1) : Int) : Rat)),
    y := truncToInt ((y1 : Rat) + t * (((y2 - y1) : Int) : Rat)) }

/-- The mutable state of a Geometry object: its lastCount_ field. -/
structure Geometry where
  lastCount : Int
deriving DecidableEq

/-- Geometry.createLine from samples.hpp: returns the produced points and
the updated object state (lastCount_ set to 0 on a nonpositive request,
and to the produced length otherwise). -/
def Geometry.createLine (g : Geometry) (x1 y1 x2 y2 numPoints : Int) :
    List Point × Geometry :=
  if numPoints ≤ 0 then ([], { g with lastCount := 0 })
  else
    let points := (List.range numPoints.toNat).map (linePoint x1 y1 x2 y2 numPoints)
    (points, { g with lastCount := (points.length : Int) })

/-- The box produced by iteration i of the loop in
Geometry.findBoundingBoxes: x = y = i * 10, width = height = 50 + i,
confidence = 0.9 - i * 0.1. -/
def boxAt (i : Nat) : BoundingBox :=
  { x := (i : Int) * 10, y := (i : Int) * 10,
    width := 50 + (i : Int), height := 50 + (i : Int),
    confidence := 9/10 - (i : Rat) * (1/10) }

/-- Geometry.findBoundingBoxes from samples.hpp: box i has x = y = i * 10,
width = height = 50 + i and confidence 0.9 - i * 0.1. -/
def Geometry.findBoundingBoxes (g : Geometry) (count : Int) :
    List BoundingBox × Geometry :=
  if count ≤ 0 then ([], { g with lastCount := 0 })
  else
    let boxes := (List.range count.toNat).map boxAt
    (boxes, { g with lastCount := (boxes.length : Int) })

/-- Geometry.getLastCount from samples.hpp. -/
def Geometry.getLastCount (g : Geometry) : Int := g.lastCount

/-- The (current, total) argument pair passed to the progress callback by
iteration i of the loop in AsyncProcessor.processWithProgress. -/
def progressCall (count : Int) (i : Nat) : Int × Int := ((i : Int), count)

/-- AsyncProcessor.processWithProgress from samples.hpp: the loop invokes
onProgress(i, count) for i = 0, 1, ..., count - 1 and then returns count.
The first component is the ordered list of (current, total) argument
pairs the callback receives; the second is the return value. -/
def AsyncProcessor.processWithProgress (count : Int) : List (Int × Int) × Int :=
  ((List.range count.toNat).map (progressCall count), count)

/-- ShapeProcessor.boxContainsPoint from samples.hpp:
point.x >= box.x && point.x < box.x + box.width &&
point.y >= box.y && point.y < box.y + box.height. -/
def ShapeProcessor.boxContainsPoint (box : BoundingBox) (point : Point) : Bool :=
  decide (point.x ≥ box.x) && decide (point.x < box.x + box.width) &&
  decide (point.y ≥ box.y) && decide (point.y < box.y + box.height)

/-- ImageProcessor.readPixel from samples.hpp: returns -1 when data is
null or width is nonpositive, otherwise the buffer value at the row-major
index y * width + x.  The bytes behind a non-null data pointer are
modelled as a total function from indices to values. -/
def ImageProcessor.readPixel (data : Option (Int → Int)) (width x y : Int) : Int :=
  match data with
  | none => -1
  | some buf => if width ≤ 0 then -1 else buf (y * width + x)

/-- Step 1 of ImageProcessor.normalizeBox: if (box->x < 0) box->x = 0. -/
def clampX (b : BoundingBox) : BoundingBox :=
  if b.x < 0 then { b with x := 0 } else b

/-- Step 2 of ImageProcessor.normalizeBox: if (box->y < 0) box->y = 0. -/
def clampY (b : BoundingBox) : BoundingBox :=
  if b.y < 0 then { b with y := 0 } else b

/-- Step 3 of ImageProcessor.normalizeBox: if (box->x + box->width >
maxWidth) box->width = maxWidth - box->x, reading the already-updated x. -/
def clampW (b : BoundingBox) (maxWidth : Int) : BoundingBox :=
  if maxWidth < b.x + b.width then { b with width := maxWidth - b.x } else b

/-- Step 4 of ImageProcessor.normalizeBox: if (box->y + box->height >
maxHeight) box->height = maxHeight - box->y, reading the updated y. -/
def clampH (b : BoundingBox) (maxHeight : Int) : BoundingBox :=
  if maxHeight < b.y + b.height then { b with height := maxHeight - b.y } else b

/-- ImageProcessor.normalizeBox from samples.hpp: false and no mutation on
a null pointer, otherwise the four clamping steps in sequence and true.
The second component is the box the caller observes afterwards. -/
def ImageProcessor.normalizeBox (box : Option BoundingBox) (maxWidth maxHeight : Int) :
    Bool × Option BoundingBox :=
  match box with
  | none => (false, none)
  | some b => (true, some (clampH (clampW (clampY (clampX b)) maxWidth) maxHeight))

/-- The full intended clamping mutation of normalizeBox, written as one
simultaneous update: origin clamped to be nonnegative, then width and
height shrunk so the box ends within maxWidth by maxHeight. -/
def clampBox (b : BoundingBox) (maxWidth maxHeight : Int) : BoundingBox :=
  { x := max b.x 0, y := max b.y 0,
    width := if maxWidth < max b.x 0 + b.width then maxWidth - max b.x 0 else b.width,
    height := if maxHeight < max b.y 0 + b.height then maxHeight - max b.y 0 else b.height,
    confidence := b.confidence }

/-- The Color enum of the C API (samples_c_api.h). -/
inductive Color where
  | Color_Red
  | Color_Green
  | Color_Blue
deriving DecidableEq

/-- TaskProcessor.getColorByIndex from samples.hpp: switch on the C++
remainder index % 3 (truncating division, i.e. Int.tmod), case 0 red,
case 1 green, default blue. -/
def TaskProcessor.getColorByIndex (index : Int) : Color :=
  if index.tmod 3 = 0 then Color.Color_Red
  else if index.tmod 3 = 1 then Color.Color_Green
  else Color.Color_Blue

/-- TaskProcessor.isPrimaryColor from samples.hpp: true exactly on red,
green and blue. -/
def TaskProcessor.isPrimaryColor (color : Color) : Bool :=
  decide (color = Color.Color_Red) || decide (color = Color.Color_Green) ||
  decide (color = Color.Color_Blue)

/-- The red, green, blue cycle the spec describes for nonnegative
indices. -/
def colorCycle : List Color :=
  [Color.Color_Red, Color.Color_Green, Color.Color_Blue]

/-- Modelled from the spec: the opaque handle registry of the C-ABI
boundary layer (the samples_c_api implementation, which is not under
src).  A handle is either null (none) or an identifier; the registry
tracks which identifiers are currently live.  create allocates a fresh
live identifier; destroy removes a live identifier and is a no-op on a
null or already-destroyed handle; every other boundary operation checks
its handle first and, when the handle is null or not live, returns the
operation's documented sentinel value and leaves all state untouched. -/
structure HandleRegistry where
  nextId : Nat
  live : Finset Nat

/-- Modelled from the spec: a create operation returns a fresh handle and
registers it as live. -/
def HandleRegistry.create (r : HandleRegistry) : Option Nat × HandleRegistry :=
  (some r.nextId, { nextId := r.nextId + 1, live := insert r.nextId r.live })

/-- Modelled from the spec: destroy releases a live handle and is a no-op
on a null or already-destroyed handle (never a double free). -/
def HandleRegistry.destroy (r : HandleRegistry) (h : Option Nat) : HandleRegistry :=
  match h with
  | none => r
  | some id => if id ∈ r.live then { r with live := r.live.erase id } else r

/-- Modelled from the spec: any boundary operation other than create and
destroy, parameterised by its documented sentinel result and by what it
would compute and change on a valid handle.  On a null or dead handle it
returns the sentinel and leaves the registry unchanged. -/
def HandleRegistry.invoke {α : Type} (r : HandleRegistry) (h : Option Nat)
    (sentinel : α) (body : α × HandleRegistry) : α × HandleRegistry :=
  match h with
  | none => (sentinel, r)
  | some id => if id ∈ r.live then body else (sentinel, r)

end Samples

namespace Samples

/-- C4: add, subtract and multiply agree with integer arithmetic for all
integers, and divide returns the exact quotient for a nonzero divisor and
the documented default 0.0 for a zero divisor. -/
theorem calculator_arithmetic (a b : Int) (p q : Rat) :
    Calculator.add a b = a + b ∧
    Calculator.subtract a b = a - b ∧
    Calculator.multiply a b = a * b ∧
    (q ≠ 0 → Calculator.divide p q = p / q) ∧
    (q = 0 → Calculator.divide p q = 0) := by
  refine ⟨rfl, rfl, rfl, ?_, ?_⟩
  · intro hq
    simp [Calculator.divide, hq]
  · intro hq
    simp [Calculator.divide, hq]

/-- Witness for C4 at a = 2, b = 3, p = 10, q = 4 and at q = 0. -/
theorem calculator_arithmetic_witness :
    Calculator.add 2 3 = 5 ∧ Calculator.divide 10 4 = 5/2 ∧
    Calculator.divide 7 0 = 0 := by
  have h := calculator_arithmetic 2 3 10 4
  have h0 := calculator_arithmetic 2 3 7 0
  exact ⟨h.1, by rw [h.2.2.2.1 (by norm_num)]; norm_num,
    h0.2.2.2.2 rfl⟩

/-- C5: statusFromCode maps 0, 1, 10, 20, 100 to the five statuses, maps
every other integer to Status_Unknown, and parsing the defined code of any
status yields that status back. -/
theorem statusFromCode_total (c : Int) :
    TaskProcessor.statusFromCode 0 = Status.Status_Unknown ∧
    TaskProcessor.statusFromCode 1 = Status.Status_Pending ∧
    TaskProcessor.statusFromCode 10 = Status.Status_Active ∧
    TaskProcessor.statusFromCode 20 = Status.Status_Completed ∧
    TaskProcessor.statusFromCode 100 = Status.Status_Failed ∧
    (c ≠ 0 → c ≠ 1 → c ≠ 10 → c ≠ 20 → c ≠ 100 →
      TaskProcessor.statusFromCode c = Status.Status_Unknown) ∧
    (∀ s : Status, TaskProcessor.statusFromCode (statusCode s) = s) := by
  refine ⟨rfl, rfl, rfl, rfl, rfl, ?_, ?_⟩
  · intro h0 h1 h10 h20 h100
    simp [TaskProcessor.statusFromCode, h0, h1, h10, h20, h100]
  · intro s
    cases s <;> rfl

/-- Witness for C5 at the out-of-range code 7. -/
theorem statusFromCode_total_witness :
    TaskProcessor.statusFromCode 7 = Status.Status_Unknown ∧
    TaskProcessor.statusFromCode (statusCode Status.Status_Active) =
      Status.Status_Active := by
  have h := statusFromCode_total 7
  exact ⟨h.2.2.2.2.2.1 (by norm_num) (by norm_num) (by norm_num)
    (by norm_num) (by norm_num), h.2.2.2.2.2.2 Status.Status_Active⟩

theorem truncToInt_intCast (m : Int) : truncToInt (m : Rat) = m := by
  unfold truncToInt
  split <;> simp

theorem linePoint_zero (x1 y1 x2 y2 n : Int) :
    linePoint x1 y1 x2 y2 n 0 = ⟨x1, y1⟩ := by
  unfold linePoint
  split <;> simp [truncToInt_intCast]

theorem linePoint_last (x1 y1 x2 y2 n : Int) (h : 2 ≤ n) :
    linePoint x1 y1 x2 y2 n (n.toNat - 1) = ⟨x2, y2⟩ := by
  have hn1 : n ≠ 1 := by omega
  have hInt : ((n.toNat - 1 : Nat) : Int) = n - 1 := by omega
  have hcast : ((n.toNat - 1 : Nat) : Rat) = (n : Rat) - 1 := by
    calc ((n.toNat - 1 : Nat) : Rat) = (((n.toNat - 1 : Nat) : Int) : Rat) := by
          norm_cast
      _ = ((n - 1 : Int) : Rat) := by rw [hInt]
      _ = (n : Rat) - 1 := by push_cast; ring
  have hne : (n : Rat) - 1 ≠ 0 := by
    have : (n : Rat) ≠ 1 := by exact_mod_cast hn1
    intro hc
    exact this (by linarith)
  have hx : (x1 : Rat) + ((x2 - x1 : Int) : Rat) = ((x2 : Int) : Rat) := by
    push_cast
    ring
  have hy : (y1 : Rat) + ((y2 - y1 : Int) : Rat) = ((y2 : Int) : Rat) := by
    push_cast
    ring
  unfold linePoint
  rw [if_neg hn1, hcast, div_self hne]
  simp only [one_mul, hx, hy, truncToInt_intCast]

/-- C3: createLine produces n points for n at least 2, the first equal to
(x1, y1) and the last to (x2, y2); exactly the point (x1, y1) for n = 1;
the empty list for nonpositive n; and in every case getLastCount on the
resulting state equals the produced length. -/
theorem createLine_spec (g : Geometry) (x1 y1 x2 y2 n : Int) :
    (2 ≤ n →
      (((g.createLine x1 y1 x2 y2 n).1.length : Int) = n ∧
        (g.createLine x1 y1 x2 y2 n).1.head? = some ⟨x1, y1⟩ ∧
        (g.createLine x1 y1 x2 y2 n).1.getLast? = some ⟨x2, y2⟩)) ∧
    (n = 1 → (g.createLine x1 y1 x2 y2 n).1 = [⟨x1, y1⟩]) ∧
    (n ≤ 0 → (g.createLine x1 y1 x2 y2 n).1 = []) ∧
    (g.createLine x1 y1 x2 y2 n).2.getLastCount =
      ((g.createLine x1 y1 x2 y2 n).1.length : Int) := by
  refine ⟨?_, ?_, ?_, ?_⟩
  · intro h2
    have hpos : ¬ n ≤ 0 := by omega
    have hpts : (g.createLine x1 y1 x2 y2 n).1 =
        (List.range n.toNat).map (linePoint x1 y1 x2 y2 n) := by
      unfold Geometry.createLine
      rw [if_neg hpos]
    obtain ⟨m, hm⟩ : ∃ m, n.toNat = m + 1 := ⟨n.toNat - 1, by omega⟩
    refine ⟨?_, ?_, ?_⟩
    · rw [hpts, List.length_map, List.length_range]
      omega
    · rw [hpts, hm, List.range_succ_eq_map]
      simp [linePoint_zero]
    · rw [hpts, hm, List.range_succ, List.map_append]
      simp only [List.map_cons, List.map_nil]
      rw [List.getLast?_concat]
      have hm1 : m = n.toNat - 1 := by omega
      rw [hm1, linePoint_last x1 y1 x2 y2 n h2]
  · intro h1
    subst h1
    have hpts : (g.createLine x1 y1 x2 y2 1).1 =
        (List.range (1 : Int).toNat).map (linePoint x1 y1 x2 y2 1) := by
      unfold Geometry.createLine
      rw [if_neg (by omega)]
    rw [hpts, show (1 : Int).toNat = 1 from rfl, show List.range 1 = [0] from rfl]
    simp [linePoint_zero]
  · intro h0
    unfold Geometry.createLine
    rw [if_pos h0]
  · unfold Geometry.createLine
    split <;> rfl

/-- Witness for C3 on the line (0,0) to (10,10) with 3 points, and on a
negative request. -/
theorem createLine_spec_witness :
    (((Geometry.createLine ⟨0⟩ 0 0 10 10 3).1.length : Int) = 3 ∧
      (Geometry.createLine ⟨0⟩ 0 0 10 10 3).1.head? = some ⟨0, 0⟩ ∧
      (Geometry.createLine ⟨0⟩ 0 0 10 10 3).1.getLast? = some ⟨10, 10⟩) ∧
    (Geometry.createLine ⟨0⟩ 0 0 10 10 1).1 = [⟨0, 0⟩] ∧
    (Geometry.createLine ⟨0⟩ 0 0 10 10 (-2)).1 = [] :=
  ⟨(createLine_spec ⟨0⟩ 0 0 10 10 3).1 (by norm_num),
    (createLine_spec ⟨0⟩ 0 0 10 10 1).2.1 rfl,
    (createLine_spec ⟨0⟩ 0 0 10 10 (-2)).2.2.1 (by norm_num)⟩

/-- C7: findBoundingBoxes produces count boxes for positive count, the
k-th having x = y = k * 10 and width = height = 50 + k (hence strictly
increasing by 10 and by 1 from the base 50), and the empty list for
nonpositive count. -/
theorem findBoundingBoxes_spec (g : Geometry) (count : Int) :
    (0 < count →
      (((g.findBoundingBoxes count).1.length : Int) = count ∧
        ∀ k : Nat, (k : Int) < count →
          (g.findBoundingBoxes count).1[k]? =
            some ⟨(k : Int) * 10, (k : Int) * 10, 50 + (k : Int), 50 + (k : Int),
              9/10 - (k : Rat) * (1/10)⟩)) ∧
    (count ≤ 0 → (g.findBoundingBoxes count).1 = []) := by
  constructor
  · intro hpos
    have hbx : (g.findBoundingBoxes count).1 = (List.range count.toNat).map boxAt := by
      unfold Geometry.findBoundingBoxes
      rw [if_neg (by omega)]
    refine ⟨?_, ?_⟩
    · rw [hbx, List.length_map, List.length_range]
      omega
    · intro k hk
      have hk2 : k < count.toNat := by omega
      rw [hbx, List.getElem?_map, List.getElem?_range hk2]
      rfl
  · intro h0
    unfold Geometry.findBoundingBoxes
    rw [if_pos h0]

/-- Witness for C7 with count = 2, reading box 1, and with count = -1. -/
theorem findBoundingBoxes_spec_witness :
    ((Geometry.findBoundingBoxes ⟨0⟩ 2).1.length : Int) = 2 ∧
    (Geometry.findBoundingBoxes ⟨0⟩ 2).1[1]? = some ⟨10, 10, 51, 51, 4/5⟩ ∧
    (Geometry.findBoundingBoxes ⟨0⟩ (-1)).1 = [] := by
  have h := findBoundingBoxes_spec ⟨0⟩ 2
  refine ⟨(h.1 (by norm_num)).1, ?_, (findBoundingBoxes_spec ⟨0⟩ (-1)).2 (by norm_num)⟩
  rw [(h.1 (by norm_num)).2 1 (by norm_num)]
  norm_num

/-- C2 counterexample: at count = -1 the callback is invoked zero times,
not -1 times, so the unconditional claim fails for negative counts. -/
theorem processWithProgress_neg_counterexample :
    ¬ (((AsyncProcessor.processWithProgress (-1)).1.length : Int) = -1) := by
  decide

/-- C2 (amended): processWithProgress invokes the callback exactly
max(count, 0) times, the k-th invocation receiving current = k and
total = count, with the current values strictly increasing, and returns
count; for nonnegative count this is exactly count invocations with
current running through 0 .. count - 1. -/
theorem processWithProgress_spec (n : Int) :
    ((AsyncProcessor.processWithProgress n).1.length : Int) = max n 0 ∧
    (∀ k : Nat, (k : Int) < n →
      (AsyncProcessor.processWithProgress n).1[k]? = some ((k : Int), n)) ∧
    List.Pairwise (fun a b : Int × Int => a.1 < b.1)
      (AsyncProcessor.processWithProgress n).1 ∧
    (∀ p ∈ (AsyncProcessor.processWithProgress n).1, p.2 = n) ∧
    (AsyncProcessor.processWithProgress n).2 = n := by
  have hcalls : (AsyncProcessor.processWithProgress n).1 =
      (List.range n.toNat).map (progressCall n) := rfl
  refine ⟨?_, ?_, ?_, ?_, rfl⟩
  · rw [hcalls, List.length_map, List.length_range]
    omega
  · intro k hk
    have hk2 : k < n.toNat := by omega
    rw [hcalls, List.getElem?_map, List.getElem?_range hk2]
    rfl
  · rw [hcalls]
    refine List.pairwise_map.2 ?_
    refine (List.pairwise_lt_range n.toNat).imp ?_
    intro a b hab
    show (a : Int) < (b : Int)
    exact_mod_cast hab
  · intro p hp
    rw [hcalls, List.mem_map] at hp
    obtain ⟨i, _, hi⟩ := hp
    rw [← hi]
    rfl

/-- Witness for C2 at count = 3: the second invocation is (1, 3), the
pair (0, 3) received total 3, and the call returns 3. -/
theorem processWithProgress_spec_witness :
    (AsyncProcessor.processWithProgress 3).1[1]? = some (1, 3) ∧
    ((0 : Int), (3 : Int)).2 = 3 ∧
    (AsyncProcessor.processWithProgress 3).2 = 3 :=
  ⟨by simpa using (processWithProgress_spec 3).2.1 1 (by norm_num),
    (processWithProgress_spec 3).2.2.2.1 (0, 3) (by decide),
    (processWithProgress_spec 3).2.2.2.2⟩

/-- C6 counterexample: for the degenerate box at the origin with zero
width and height, the point exactly at (box.x, box.y) is not contained,
so the corner-containment half of the claim fails for that box. -/
theorem boxContainsPoint_corner_counterexample :
    ShapeProcessor.boxContainsPoint ⟨0, 0, 0, 0, 0⟩ ⟨0, 0⟩ = false := by
  decide

/-- C6 (amended): for every box of positive width and height the point
exactly at (box.x, box.y) is contained, and for every box the point at
(box.x + box.width, box.y + box.height) is not contained: half-open
interval semantics. -/
theorem boxContainsPoint_halfOpen (box : BoundingBox) :
    (0 < box.width → 0 < box.height →
      ShapeProcessor.boxContainsPoint box ⟨box.x, box.y⟩ = true) ∧
    ShapeProcessor.boxContainsPoint box
      ⟨box.x + box.width, box.y + box.height⟩ = false := by
  constructor
  · intro hw hh
    simp only [ShapeProcessor.boxContainsPoint]
    simp
    omega
  · simp only [ShapeProcessor.boxContainsPoint]
    simp

/-- Witness for C6 on the box at (10, 10) of size 100 by 100. -/
theorem boxContainsPoint_halfOpen_witness :
    ShapeProcessor.boxContainsPoint ⟨10, 10, 100, 100, 9/10⟩ ⟨10, 10⟩ = true ∧
    ShapeProcessor.boxContainsPoint ⟨10, 10, 100, 100, 9/10⟩ ⟨110, 110⟩ = false := by
  have h := boxContainsPoint_halfOpen ⟨10, 10, 100, 100, 9/10⟩
  exact ⟨h.1 (by norm_num) (by norm_num), h.2⟩

/-- C8: readPixel returns the sentinel -1 on a null data pointer and on a
nonpositive width without reading the buffer, and otherwise returns the
buffer value at the row-major index y * width + x. -/
theorem readPixel_spec (buf : Int → Int) (width x y : Int) :
    ImageProcessor.readPixel none width x y = -1 ∧
    (width ≤ 0 → ImageProcessor.readPixel (some buf) width x y = -1) ∧
    (0 < width →
      ImageProcessor.readPixel (some buf) width x y = buf (y * width + x)) := by
  refine ⟨rfl, ?_, ?_⟩
  · intro h
    simp only [ImageProcessor.readPixel]
    rw [if_pos h]
  · intro h
    simp only [ImageProcessor.readPixel]
    rw [if_neg (by omega)]

/-- Witness for C8 with the buffer i + 7 at width 2, x = 1, y = 1, and
with width 0. -/
theorem readPixel_spec_witness :
    ImageProcessor.readPixel (some fun i => i + 7) 2 1 1 = 10 ∧
    ImageProcessor.readPixel (some fun i => i + 7) 0 1 1 = -1 := by
  have h := readPixel_spec (fun i => i + 7) 2 1 1
  have h0 := readPixel_spec (fun i => i + 7) 0 1 1
  refine ⟨?_, h0.2.1 (by norm_num)⟩
  rw [h.2.2 (by norm_num)]
  norm_num

theorem clamp_steps_eq (b : BoundingBox) (mw mh : Int) :
    clampH (clampW (clampY (clampX b)) mw) mh = clampBox b mw mh := by
  obtain ⟨x, y, w, h, c⟩ := b
  have hx0 : clampX ⟨x, y, w, h, c⟩ = ⟨max x 0, y, w, h, c⟩ := by
    by_cases hx1 : x < 0
    · rw [show max x 0 = 0 from max_eq_right hx1.le]
      exact if_pos hx1
    · rw [show max x 0 = x from max_eq_left (by omega)]
      exact if_neg hx1
  have hy0 : clampY ⟨max x 0, y, w, h, c⟩ = ⟨max x 0, max y 0, w, h, c⟩ := by
    by_cases hy1 : y < 0
    · rw [show max y 0 = 0 from max_eq_right hy1.le]
      exact if_pos hy1
    · rw [show max y 0 = y from max_eq_left (by omega)]
      exact if_neg hy1
  have hw0 : clampW ⟨max x 0, max y 0, w, h, c⟩ mw =
      ⟨max x 0, max y 0, if mw < max x 0 + w then mw - max x 0 else w, h, c⟩ := by
    by_cases hw1 : mw < max x 0 + w
    · rw [if_pos hw1]
      exact if_pos hw1
    · rw [if_neg hw1]
      exact if_neg hw1
  have hh0 : ∀ W, clampH ⟨max x 0, max y 0, W, h, c⟩ mh =
      ⟨max x 0, max y 0, W, if mh < max y 0 + h then mh - max y 0 else h, c⟩ := by
    intro W
    by_cases hh1 : mh < max y 0 + h
    · rw [if_pos hh1]
      exact if_pos hh1
    · rw [if_neg hh1]
      exact if_neg hh1
  rw [hx0, hy0, hw0, hh0]
  rfl

/-- C9: normalizeBox is atomic: whenever it reports failure the observed
box is exactly the input (failure happens only on the null pointer and
mutates nothing), and on success the full intended clamping mutation is
applied in one piece and true is returned. -/
theorem normalizeBox_atomic (box : Option BoundingBox) (mw mh : Int) :
    ((ImageProcessor.normalizeBox box mw mh).1 = false →
      (ImageProcessor.normalizeBox box mw mh).2 = box) ∧
    ImageProcessor.normalizeBox none mw mh = (false, none) ∧
    (∀ b, box = some b →
      ImageProcessor.normalizeBox box mw mh = (true, some (clampBox b mw mh))) := by
  refine ⟨?_, rfl, ?_⟩
  · intro hfail
    cases box with
    | none => rfl
    | some b => simp [ImageProcessor.normalizeBox] at hfail
  · intro b hb
    subst hb
    simp only [ImageProcessor.normalizeBox]
    rw [clamp_steps_eq]

/-- Witness for C9 on the box (-5, 3, 100, 200) clamped to 50 by 60, and
on the null pointer. -/
theorem normalizeBox_atomic_witness :
    ImageProcessor.normalizeBox (some ⟨-5, 3, 100, 200, 1⟩) 50 60 =
      (true, some ⟨0, 3, 50, 57, 1⟩) ∧
    (ImageProcessor.normalizeBox none 50 60).2 = none := by
  have h := (normalizeBox_atomic (some ⟨-5, 3, 100, 200, 1⟩) 50 60).2.2
    ⟨-5, 3, 100, 200, 1⟩ rfl
  have h0 := (normalizeBox_atomic none 50 60).1 rfl
  refine ⟨?_, h0⟩
  rw [h]
  norm_num [clampBox]

/-- C10: getColorByIndex always yields a primary color (so composing
with isPrimaryColor is constantly true); for nonnegative indices it
cycles red, green, blue by index mod 3; and every negative index not
divisible by 3 yields blue, because the C++ remainder of a negative
index is negative and falls to the default switch case. -/
theorem getColorByIndex_spec (i : Int) :
    TaskProcessor.isPrimaryColor (TaskProcessor.getColorByIndex i) = true ∧
    (0 ≤ i → colorCycle[i.toNat % 3]? = some (TaskProcessor.getColorByIndex i)) ∧
    (i < 0 → ¬ (3 ∣ i) → TaskProcessor.getColorByIndex i = Color.Color_Blue) := by
  refine ⟨?_, ?_, ?_⟩
  · unfold TaskProcessor.getColorByIndex TaskProcessor.isPrimaryColor
    split_ifs <;> simp
  · intro hi
    obtain ⟨m, rfl⟩ : ∃ m : Nat, i = (m : Int) :=
      ⟨i.toNat, (Int.toNat_of_nonneg hi).symm⟩
    have htm : (m : Int).tmod 3 = ((m % 3 : Nat) : Int) := rfl
    have ht : (m : Int).toNat = m := rfl
    have h3 : m % 3 = 0 ∨ m % 3 = 1 ∨ m % 3 = 2 := by omega
    unfold TaskProcessor.getColorByIndex
    rw [htm, ht]
    rcases h3 with h | h | h <;> rw [h] <;> norm_num <;> rfl
  · intro hneg hdvd
    obtain ⟨m, rfl⟩ : ∃ m : Nat, i = Int.negSucc m := by
      cases i with
      | ofNat k => exact absurd hneg (by simp)
      | negSucc k => exact ⟨k, rfl⟩
    have htm : (Int.negSucc m).tmod 3 = -(((m + 1) % 3 : Nat) : Int) := rfl
    have hmod : (m + 1) % 3 ≠ 0 := by
      intro hc
      apply hdvd
      have : ((3 : Nat) : Int) ∣ ((m + 1 : Nat) : Int) :=
        Int.natCast_dvd_natCast.2 (Nat.dvd_of_mod_eq_zero hc)
      have hns : Int.negSucc m = -((m + 1 : Nat) : Int) := by
        simp [Int.negSucc_eq]
      rw [hns]
      exact dvd_neg.2 (by exact_mod_cast this)
    have h3 : (m + 1) % 3 = 1 ∨ (m + 1) % 3 = 2 := by omega
    unfold TaskProcessor.getColorByIndex
    rw [htm]
    rcases h3 with h | h <;> rw [h] <;> norm_num

/-- Witness for C10 at the nonnegative index 4 and the negative index
-5. -/
theorem getColorByIndex_spec_witness :
    colorCycle[(4 : Int).toNat % 3]? = some (TaskProcessor.getColorByIndex 4) ∧
    TaskProcessor.getColorByIndex (-5) = Color.Color_Blue :=
  ⟨(getColorByIndex_spec 4).2.1 (by norm_num),
    (getColorByIndex_spec (-5)).2.2 (by norm_num) (by decide)⟩

theorem not_mem_live_destroy (r : HandleRegistry) (id : Nat) :
    id ∉ (r.destroy (some id)).live := by
  have hd : r.destroy (some id) =
      if id ∈ r.live then { r with live := r.live.erase id } else r := rfl
  rw [hd]
  split_ifs with h
  · exact Finset.not_mem_erase id r.live
  · exact h

/-- C1 (spec-modelled): invoking any boundary operation other than create
on the null handle, or on a handle that was already destroyed, returns
the operation's documented sentinel value and changes nothing, and
destroy on a null or already-destroyed handle is a no-op. -/
theorem handle_invalid_safe {α : Type} (r : HandleRegistry) (id : Nat)
    (sentinel : α) (body : α × HandleRegistry) :
    HandleRegistry.invoke r none sentinel body = (sentinel, r) ∧
    HandleRegistry.destroy r none = r ∧
    HandleRegistry.invoke (r.destroy (some id)) (some id) sentinel body
      = (sentinel, r.destroy (some id)) ∧
    HandleRegistry.destroy (r.destroy (some id)) (some id) = r.destroy (some id) := by
  refine ⟨rfl, rfl, ?_, ?_⟩
  · have hi : HandleRegistry.invoke (r.destroy (some id)) (some id) sentinel body =
        if id ∈ (r.destroy (some id)).live then body
        else (sentinel, r.destroy (some id)) := rfl
    rw [hi, if_neg (not_mem_live_destroy r id)]
  · have hd : HandleRegistry.destroy (r.destroy (some id)) (some id) =
        if id ∈ (r.destroy (some id)).live
        then { r.destroy (some id) with live := (r.destroy (some id)).live.erase id }
        else r.destroy (some id) := rfl
    rw [hd, if_neg (not_mem_live_destroy r id)]

end Samples
